import Mathlib

/-!
Verification of the report-generation pipeline of `skill_eval`
(`evals/src/skill_eval/reporter.py`, function `generate_report`).

The embedding models Python values as follows:
* Python numbers are carried by unreduced fractions `Frac` (numerator `Int`,
  denominator `Nat`). A `Frac` with `den = 1` stands for a Python int (a JSON
  number without fractional part); any other `Frac` stands for the Python
  float (IEEE-754 binary64 value) nearest to the rational, every binary64
  value being itself a rational. Arithmetic follows Python: int (+) int and
  int (*) int are exact; any operation touching a float, and every true
  division, rounds its exact result to the nearest binary64 value with ties
  to even (`fl`), as IEEE-754 prescribes. Values beyond the binary64 finite
  range (magnitude at least 2^1024, unreachable for grade data) are not given
  infinity semantics.
* Python dicts that the code iterates and mutates are modelled as association
  lists in insertion order (`List (String × α)`), with lookup, in-place update
  and append-on-new-key mirroring dict semantics.
* `sorted(...)` on dict items is modelled by `sortPairs`, an insertion sort by
  the code-point lexicographic order on the key strings (Python string order).
* `str.lower()` is modelled by `pyLower` (ASCII case folding, which agrees
  with Python on the label strings involved).
* A loaded grade document (`load_grades` result) is a `GradeDocument`; a JSON
  field that is absent (or null) is `none`.
* `"%.0f"` / `"%.1f"` formatting applies decimal rounding half-to-even
  (`rndHE`) to the exact value of its argument; CPython formats a float
  correctly rounded from the exact value of the double, so applying this to
  the `fl`-rounded results reproduces Python output, and Python `round` on a
  float is the same half-to-even rounding of the double.
-/

namespace SkillEval

/-- Unreduced fraction: the value carrier for Python numbers. `den = 1`
stands for a Python int; other values stand for binary64 floats (every
binary64 value is a rational). `den` is kept positive by all operations the
reporter performs. -/
structure Frac where
  num : Int
  den : Nat
deriving DecidableEq, Repr

namespace Frac

/-- Embed a Python int. -/
def ofNat (n : Nat) : Frac := ⟨n, 1⟩

/-- Exact rational addition (building block; Python float ops round it). -/
protected def add (a b : Frac) : Frac :=
  ⟨a.num * b.den + b.num * a.den, a.den * b.den⟩

/-- Exact rational multiplication (building block). -/
protected def mul (a b : Frac) : Frac := ⟨a.num * b.num, a.den * b.den⟩

protected def inv (a : Frac) : Frac :=
  if 0 ≤ a.num then ⟨a.den, a.num.toNat⟩ else ⟨-(a.den : Int), (-a.num).toNat⟩

/-- Exact rational division (building block). -/
protected def div (a b : Frac) : Frac := Frac.mul a (Frac.inv b)

theorem ext' {a b : Frac} (h1 : a.num = b.num) (h2 : a.den = b.den) : a = b := by
  cases a; cases b; simp_all

end Frac

/-- Code-point comparison of char lists: the order Python uses on strings. -/
def leChars : List Char → List Char → Bool
  | [], _ => true
  | _ :: _, [] => false
  | a :: as, b :: bs =>
    if a.toNat < b.toNat then true
    else if b.toNat < a.toNat then false
    else leChars as bs

/-- Python string comparison `a <= b` (code-point lexicographic). -/
def strLe (a b : String) : Bool := leChars a.data b.data

/-- ASCII lower-casing of one character. -/
def lowerChar (c : Char) : Char :=
  if 65 ≤ c.toNat ∧ c.toNat ≤ 90 then Char.ofNat (c.toNat + 32) else c

/-- Model of Python `str.lower()` (ASCII case folding). -/
def pyLower (s : String) : String := ⟨s.data.map lowerChar⟩

/-- Round-half-to-even of an exact fraction to an integer: the rounding used
by Python's `round` and by `"%.0f"` formatting. Requires `q.den > 0` to be
meaningful (true for every value the reporter formats). -/
def rndHE (q : Frac) : Int :=
  let f := Int.fdiv q.num q.den
  let r := q.num - f * q.den
  if 2 * r < (q.den : Int) then f
  else if (q.den : Int) < 2 * r then f + 1
  else if f % 2 = 0 then f else f + 1

/-- Python `f"{x:.0f}"`: format with zero decimal places. CPython formats a
float correctly rounded (ties to even) from the exact value of the double;
the reporter passes `fl`-rounded binary64 values here. -/
def fmt0 (q : Frac) : String := toString (rndHE q)

/-- Python `f"{x:.1f}"`: format with one decimal place, correctly rounded
(ties to even) from the exact value of the binary64 argument. -/
def fmt1 (q : Frac) : String :=
  let n := rndHE (Frac.mul q ⟨10, 1⟩)
  if n < 0 then
    "-" ++ toString ((-n).toNat / 10) ++ "." ++ toString ((-n).toNat % 10)
  else
    toString (n.toNat / 10) ++ "." ++ toString (n.toNat % 10)

/-- Fuel-driven floor base-2 logarithm (structural recursion so that the
kernel can evaluate it). -/
def log2F : Nat → Nat → Nat
  | 0, _ => 0
  | f + 1, n => if n ≤ 1 then 0 else log2F f (n / 2) + 1

/-- Floor of the base-2 logarithm of a positive natural. -/
def natLog2 (n : Nat) : Nat := log2F n n

/-- Does `2 ^ e ≤ a / d` hold, for positive `a` and `d`? -/
def le2pow (e : Int) (a d : Nat) : Bool :=
  if 0 ≤ e then 2 ^ e.toNat * d ≤ a else d ≤ a * 2 ^ (-e).toNat

/-- Floor of the base-2 logarithm of the positive rational `a / d`. -/
def ilog2Rat (a d : Nat) : Int :=
  let e : Int := (natLog2 a : Int) - (natLog2 d : Int)
  if le2pow e a d then e else e - 1

/-- Round a rational to the nearest IEEE-754 binary64 value, ties to even,
returned as an exact fraction (every binary64 value is a rational). This is
the rounding Python applies to every float operation result and to int-to-
float conversion. Handles normals and subnormals; magnitudes at or above
2^1024 (unreachable for grade data) are not given infinity semantics. -/
def fl (q : Frac) : Frac :=
  if q.num = 0 then ⟨0, 1⟩
  else
    let e := ilog2Rat q.num.natAbs q.den
    let k : Int := if e < -1022 then 1074 else 52 - e
    let m : Int :=
      if 0 ≤ k then rndHE ⟨q.num * (2 ^ k.toNat : Nat), q.den⟩
      else rndHE ⟨q.num, q.den * 2 ^ (-k).toNat⟩
    if 0 ≤ k then ⟨m, 2 ^ k.toNat⟩ else ⟨m * (2 ^ (-k).toNat : Nat), 1⟩

/-- Python addition on grade numbers: int + int is exact arbitrary-precision
addition; as soon as a float is involved, both operands become binary64 and
the sum is correctly rounded (one rounding of the exact sum). -/
def pyAdd (a b : Frac) : Frac :=
  if a.den = 1 ∧ b.den = 1 then ⟨a.num + b.num, 1⟩
  else fl (Frac.add (fl a) (fl b))

/-- Python multiplication: int * int exact, otherwise correctly rounded
binary64 multiplication. -/
def pyMul (a b : Frac) : Frac :=
  if a.den = 1 ∧ b.den = 1 then ⟨a.num * b.num, 1⟩
  else fl (Frac.mul (fl a) (fl b))

/-- Python true division `a / b`: always a float; int / int is correctly
rounded from the exact quotient, float operands divide in binary64. -/
def pyDiv (a b : Frac) : Frac :=
  if a.den = 1 ∧ b.den = 1 then fl (Frac.div a b)
  else fl (Frac.div (fl a) (fl b))

/-- Python built-in `sum` over the collected scores: left fold with `pyAdd`
starting from the int 0, so an all-int list sums exactly and any float makes
the running total a float — order-dependent, as in Python. -/
def pySum (l : List Frac) : Frac := l.foldl pyAdd ⟨0, 1⟩

/-- Exact rational sum, used to state exact arithmetic means. -/
def exactSum (l : List Frac) : Frac := l.foldr Frac.add ⟨0, 1⟩

/-- Left-pad a digit string with zeros to length `k`. -/
def padZeros (s : String) (k : Nat) : String :=
  ⟨List.replicate (k - s.length) '0' ++ s.data⟩

/-- Decimal rendering of a nonnegative fraction `n / d`: `str()` of a Python
number (integers print without a decimal point, finite decimals in full). -/
def pyShowPos (n d : Nat) : String :=
  match (List.range 18).find? (fun k => n * 10 ^ k % d == 0) with
  | some 0 => toString (n / d)
  | some k =>
    let m := n * 10 ^ k / d
    toString (m / 10 ^ k) ++ "." ++ padZeros (toString (m % 10 ^ k)) k
  | none => toString n ++ "/" ++ toString d

/-- Model of Python `str(score)` for a grade score. -/
def pyShowNum (q : Frac) : String :=
  if q.num < 0 then "-" ++ pyShowPos (-q.num).toNat q.den
  else pyShowPos q.num.toNat q.den

/-- One grade record: the evaluation outcome stored for one
(scenario, skill-set) pair. A JSON field that is absent is `none`. -/
structure GradeRecord where
  success : Option Bool
  score : Option Frac
  tool_usage : Option String
  notes : Option String
deriving DecidableEq, Repr

/-- The per-skill-set statistics dict built by `generate_report`
(`skill_set_stats[name]`): passed/total counters, collected scores, and the
tool-usage tally with its three fixed keys. -/
structure SkillSetStats where
  passed : Nat
  total : Nat
  scores : List Frac
  appropriate : Nat
  partialCount : Nat
  inappropriate : Nat
deriving DecidableEq, Repr

/-- The fresh stats entry created on first encounter of a skill-set name. -/
def initStats : SkillSetStats := ⟨0, 0, [], 0, 0, 0⟩

/-- A loaded grade document. `results` maps scenario name → skill-set name →
record; both dict levels are association lists in source iteration order. -/
structure GradeDocument where
  graded_at : Option String
  grader : Option String
  results : List (String × List (String × GradeRecord))
deriving DecidableEq, Repr

/-- Python `key in dict`. -/
def hasKey (l : List (String × α)) (k : String) : Bool :=
  l.any (fun p => p.1 == k)

/-- Python `dict.get(key)` / `dict[key]` lookup. -/
def getVal? (l : List (String × α)) (k : String) : Option α :=
  (l.find? (fun p => p.1 == k)).map Prod.snd

/-- Python `dict[key] = f(dict[key])`: in-place update of an existing key,
preserving insertion order. -/
def updateVal (l : List (String × α)) (k : String) (f : α → α) :
    List (String × α) :=
  match l with
  | [] => []
  | p :: rest => if p.1 == k then (p.1, f p.2) :: rest else p :: updateVal rest k f

/-- Body of the aggregation loop of `generate_report` (reporter.py lines
30-45) for one `(skill_set_name, data)` record: `total += 1`; `passed += 1`
iff `data.get("success")` is truthy; append `data["score"]` iff
`data.get("score") is not None`; lower-case `data.get("tool_usage", "")` and
bump the matching tally iff it is one of the three canonical keys. -/
def updStats (s : SkillSetStats) (d : GradeRecord) : SkillSetStats :=
  let tu := pyLower (d.tool_usage.getD "")
  { s with
    total := s.total + 1
    passed := if d.success = some true then s.passed + 1 else s.passed
    scores := match d.score with
      | some q => s.scores ++ [q]
      | none => s.scores
    appropriate := if tu = "appropriate" then s.appropriate + 1 else s.appropriate
    partialCount := if tu = "partial" then s.partialCount + 1 else s.partialCount
    inappropriate := if tu = "inappropriate" then s.inappropriate + 1 else s.inappropriate }

/-- One iteration of the aggregation loop on the `skill_set_stats` dict:
lazily create the entry for the record's skill-set name, then update it. -/
def stepDict (dict : List (String × SkillSetStats)) (e : String × GradeRecord) :
    List (String × SkillSetStats) :=
  let d := if hasKey dict e.1 then dict else dict ++ [(e.1, initStats)]
  updateVal d e.1 (fun s => updStats s e.2)

/-- The aggregation phase of `generate_report` (reporter.py lines 27-45):
nested loop over scenarios, then over skill-set records within the scenario,
building the `skill_set_stats` dict. -/
def aggregate (results : List (String × List (String × GradeRecord))) :
    List (String × SkillSetStats) :=
  results.foldl (fun acc sc => sc.2.foldl stepDict acc) []

/-- Python `sorted(d.items())`: sort the (key, value) pairs by key. Keys are
unique in a dict, so the comparison never reaches the values. -/
def sortPairs (l : List (String × α)) : List (String × α) :=
  List.insertionSort (fun a b => strLe a.1 b.1 = true) l

/-- The fixed fallback document returned when there are no grades. -/
def noGradesDoc : String := "# No grades found\n\nRun `skill-eval grade` first."

/-- The `Tool Usage` cell of a summary row. -/
def toolStr (s : SkillSetStats) : String :=
  toString s.appropriate ++ "✓ " ++ toString s.partialCount ++ "~ " ++
    toString s.inappropriate ++ "✗"

/-- One summary-table row (reporter.py lines 50-58): pass fraction with
percentage, average score to one decimal, tool-usage tally. The percentage
`passed / total * 100` and the average `sum(scores) / len(scores)` are
computed in Python arithmetic (binary64 floats). -/
def summaryRow (name : String) (s : SkillSetStats) : String :=
  let pct : Frac :=
    if 0 < s.total then
      pyMul (pyDiv (Frac.ofNat s.passed) (Frac.ofNat s.total)) (Frac.ofNat 100)
    else Frac.ofNat 0
  let avg : Frac :=
    if s.scores.isEmpty then Frac.ofNat 0
    else pyDiv (pySum s.scores) (Frac.ofNat s.scores.length)
  "| " ++ name ++ " | " ++ toString s.passed ++ "/" ++ toString s.total ++
    " (" ++ fmt0 pct ++ "%) | " ++ fmt1 avg ++ " | " ++ toolStr s ++ " |"

/-- One detail line of the By Scenario section (reporter.py lines 66-78). -/
def detailLine (name : String) (d : GradeRecord) : String :=
  let icon :=
    if d.success = some true then "✓"
    else if d.success = some false then "❌" else "?"
  let score_str :=
    match d.score with
    | some q => "(" ++ pyShowNum q ++ ")"
    | none => ""
  let tu := d.tool_usage.getD ""
  let tool_str := if tu ≠ "" then " [tools: " ++ tu ++ "]" else ""
  let nts := d.notes.getD ""
  let notes_str := if nts ≠ "" then " - " ++ nts else ""
  "- **" ++ name ++ "**: " ++ icon ++ " " ++ score_str ++ tool_str ++ notes_str

/-- The lines rendered for one scenario subsection (reporter.py lines 64-79). -/
def renderScenario (sc : String × List (String × GradeRecord)) : List String :=
  ["### " ++ sc.1, ""] ++
    (sortPairs sc.2).map (fun p => detailLine p.1 p.2) ++ [""]

/-- The `lines` list that `generate_report` builds for a non-empty document,
in source order: title, metadata, summary table, by-scenario section. -/
def report_lines (run_id : String) (g : GradeDocument) : List String :=
  ["# Eval Report: " ++ run_id, "",
   "Graded: " ++ g.graded_at.getD "Not yet",
   "Grader: " ++ g.grader.getD "unknown",
   "", "## Summary", "",
   "| Skill Set | Passed | Avg Score | Tool Usage |",
   "|-----------|--------|-----------|------------|"] ++
  (sortPairs (aggregate g.results)).map (fun p => summaryRow p.1 p.2) ++
  ["", "## By Scenario", ""] ++
  (sortPairs g.results).flatMap renderScenario

/-- `generate_report(run_dir)` after the `load_grades` call: the loaded
document (or `None`) and the run directory's base name are the inputs. -/
def generate_report (run_id : String) (grades : Option GradeDocument) : String :=
  match grades with
  | none => noGradesDoc
  | some g =>
    if g.results.isEmpty then noGradesDoc
    else String.intercalate "\n" (report_lines run_id g)

/-- All records of a results mapping, flattened in iteration order; the
aggregation loop processes exactly these `(skill_set_name, data)` pairs. -/
def flatR (r : List (String × List (String × GradeRecord))) :
    List (String × GradeRecord) :=
  (r.map Prod.snd).flatten

/-- The records that a given skill-set name contributes, in iteration order. -/
def recsFor (k : String) (l : List (String × GradeRecord)) : List GradeRecord :=
  (l.filter (fun e => e.1 == k)).map Prod.snd

theorem aggregate_eq_foldl_flat (r : List (String × List (String × GradeRecord))) :
    aggregate r = (flatR r).foldl stepDict [] := by
  suffices h : ∀ (r : List (String × List (String × GradeRecord))) acc,
      r.foldl (fun acc sc => sc.2.foldl stepDict acc) acc =
        (flatR r).foldl stepDict acc by
    exact h r []
  intro r
  induction r with
  | nil => intro acc; rfl
  | cons sc r ih =>
    intro acc
    simp only [List.foldl_cons, flatR, List.map_cons, List.flatten_cons,
      List.foldl_append, ih]

theorem getVal?_updateVal_self (l : List (String × α)) (k : String) (f : α → α) :
    getVal? (updateVal l k f) k = (getVal? l k).map f := by
  induction l with
  | nil => rfl
  | cons p l ih =>
    by_cases h : p.1 == k
    · simp [updateVal, getVal?, h]
    · simpa [updateVal, getVal?, List.find?_cons, h] using ih

theorem getVal?_updateVal_ne (l : List (String × α)) {k k' : String} (f : α → α)
    (h : k ≠ k') : getVal? (updateVal l k' f) k = getVal? l k := by
  induction l with
  | nil => rfl
  | cons p l ih =>
    by_cases hp : p.1 == k'
    · have hp' : p.1 = k' := by simpa using hp
      have hkk : (k' == k) = false := by simpa using (Ne.symm h)
      simp [updateVal, getVal?, hp, hp', hkk, List.find?_cons]
    · by_cases hk : p.1 == k
      · simp [updateVal, getVal?, hp, hk, List.find?_cons]
      · simpa [updateVal, getVal?, hp, hk, List.find?_cons] using ih

theorem getVal?_append (l₁ l₂ : List (String × α)) (k : String) :
    getVal? (l₁ ++ l₂) k =
      match getVal? l₁ k with
      | some v => some v
      | none => getVal? l₂ k := by
  simp only [getVal?, List.find?_append]
  cases h : l₁.find? (fun p => p.1 == k) <;> simp [Option.orElse, h]

theorem hasKey_iff (l : List (String × α)) (k : String) :
    hasKey l k = true ↔ (getVal? l k).isSome = true := by
  simp [hasKey, getVal?, List.find?_isSome, List.any_eq_true]

theorem keys_updateVal (l : List (String × α)) (k : String) (f : α → α) :
    (updateVal l k f).map Prod.fst = l.map Prod.fst := by
  induction l with
  | nil => rfl
  | cons p l ih =>
    by_cases h : p.1 == k <;> simp [updateVal, h, ih]

theorem getVal?_stepDict_self (d : List (String × SkillSetStats))
    (e : String × GradeRecord) :
    getVal? (stepDict d e) e.1 =
      some (updStats ((getVal? d e.1).getD initStats) e.2) := by
  simp only [stepDict]
  by_cases hh : hasKey d e.1
  · rw [if_pos hh, getVal?_updateVal_self]
    rw [hasKey_iff] at hh
    cases h : getVal? d e.1 with
    | none => rw [h] at hh; simp at hh
    | some s => simp [h]
  · rw [if_neg hh, getVal?_updateVal_self, getVal?_append]
    rw [hasKey_iff] at hh
    cases h : getVal? d e.1 with
    | none => simp [h, getVal?, List.find?_cons]
    | some s => rw [h] at hh; simp at hh

theorem getVal?_stepDict_ne (d : List (String × SkillSetStats))
    (e : String × GradeRecord) (k : String) (hk : k ≠ e.1) :
    getVal? (stepDict d e) k = getVal? d k := by
  simp only [stepDict]
  rw [getVal?_updateVal_ne _ _ hk]
  by_cases hh : hasKey d e.1
  · rw [if_pos hh]
  · rw [if_neg hh, getVal?_append]
    have he : (e.1 == k) = false := by simpa using (Ne.symm hk)
    cases h : getVal? d k with
    | none => simp [h, getVal?, List.find?_cons, he]
    | some s => simp [h]

/-- Central characterization of the aggregation loop: after folding the
records of `l` into dict `d`, the entry at key `k` is the fold of `updStats`
over exactly the records carrying key `k`, started from the prior entry
(or from `initStats` if `k` was first seen in `l`). -/
theorem getVal?_foldl_stepDict (l : List (String × GradeRecord)) :
    ∀ (d : List (String × SkillSetStats)) (k : String),
      getVal? (l.foldl stepDict d) k =
        match getVal? d k with
        | some s => some ((recsFor k l).foldl updStats s)
        | none =>
          if l.any (fun e => e.1 == k) then
            some ((recsFor k l).foldl updStats initStats)
          else none := by
  induction l with
  | nil => intro d k; cases h : getVal? d k <;> simp [recsFor, h]
  | cons e l ih =>
    intro d k
    rw [List.foldl_cons, ih (stepDict d e) k]
    by_cases hk : e.1 = k
    · subst hk
      rw [getVal?_stepDict_self]
      have hrec : recsFor e.1 (e :: l) = e.2 :: recsFor e.1 l := by
        simp [recsFor, List.filter_cons]
      cases h : getVal? d e.1 with
      | some s => simp [h, hrec]
      | none => simp [h, hrec, List.any_cons]
    · rw [getVal?_stepDict_ne d e k (Ne.symm hk)]
      have he : (e.1 == k) = false := by simpa using hk
      have hrec : recsFor k (e :: l) = recsFor k l := by
        simp [recsFor, List.filter_cons, he]
      rw [hrec, List.any_cons, he]
      simp only [Bool.false_or]

theorem foldl_updStats_total (l : List GradeRecord) :
    ∀ s : SkillSetStats, (l.foldl updStats s).total = s.total + l.length := by
  induction l with
  | nil => intro s; simp
  | cons d l ih =>
    intro s
    rw [List.foldl_cons, ih]
    simp [updStats]
    omega

theorem foldl_updStats_passed (l : List GradeRecord) :
    ∀ s : SkillSetStats, (l.foldl updStats s).passed =
      s.passed + l.countP (fun d => d.success == some true) := by
  induction l with
  | nil => intro s; simp
  | cons d l ih =>
    intro s
    rw [List.foldl_cons, ih, List.countP_cons]
    by_cases h : d.success = some true <;> simp [updStats, h] <;> omega

theorem foldl_updStats_scores (l : List GradeRecord) :
    ∀ s : SkillSetStats, (l.foldl updStats s).scores =
      s.scores ++ l.filterMap (fun d => d.score) := by
  induction l with
  | nil => intro s; simp
  | cons d l ih =>
    intro s
    rw [List.foldl_cons, ih, List.filterMap_cons]
    cases h : d.score <;> simp [updStats, h]

theorem foldl_updStats_appropriate (l : List GradeRecord) :
    ∀ s : SkillSetStats, (l.foldl updStats s).appropriate =
      s.appropriate + l.countP (fun d => pyLower (d.tool_usage.getD "") == "appropriate") := by
  induction l with
  | nil => intro s; simp
  | cons d l ih =>
    intro s
    rw [List.foldl_cons, ih, List.countP_cons]
    by_cases h : pyLower (d.tool_usage.getD "") = "appropriate" <;>
      simp [updStats, h] <;> omega

theorem foldl_updStats_partialCount (l : List GradeRecord) :
    ∀ s : SkillSetStats, (l.foldl updStats s).partialCount =
      s.partialCount + l.countP (fun d => pyLower (d.tool_usage.getD "") == "partial") := by
  induction l with
  | nil => intro s; simp
  | cons d l ih =>
    intro s
    rw [List.foldl_cons, ih, List.countP_cons]
    by_cases h : pyLower (d.tool_usage.getD "") = "partial" <;>
      simp [updStats, h] <;> omega

theorem foldl_updStats_inappropriate (l : List GradeRecord) :
    ∀ s : SkillSetStats, (l.foldl updStats s).inappropriate =
      s.inappropriate + l.countP (fun d => pyLower (d.tool_usage.getD "") == "inappropriate") := by
  induction l with
  | nil => intro s; simp
  | cons d l ih =>
    intro s
    rw [List.foldl_cons, ih, List.countP_cons]
    by_cases h : pyLower (d.tool_usage.getD "") = "inappropriate" <;>
      simp [updStats, h] <;> omega

theorem keys_foldl_stepDict_nodup (l : List (String × GradeRecord)) :
    ∀ d : List (String × SkillSetStats), (d.map Prod.fst).Nodup →
      ((l.foldl stepDict d).map Prod.fst).Nodup := by
  induction l with
  | nil => intro d h; exact h
  | cons e l ih =>
    intro d h
    rw [List.foldl_cons]
    apply ih
    simp only [stepDict, keys_updateVal]
    by_cases hh : hasKey d e.1
    · rw [if_pos hh]; exact h
    · rw [if_neg hh]
      have hmem : e.1 ∉ d.map Prod.fst := by
        intro hm
        apply hh
        simp only [hasKey, List.any_eq_true]
        rcases List.mem_map.1 hm with ⟨p, hp, hfst⟩
        exact ⟨p, hp, by simp [hfst]⟩
      simp only [List.map_append, List.map_cons, List.map_nil]
      rw [List.nodup_append]
      refine ⟨h, by simp, ?_⟩
      intro x hx hx'
      have : x = e.1 := by simpa using hx'
      subst this
      exact hmem hx

theorem mem_iff_getVal? (d : List (String × α)) (hnd : (d.map Prod.fst).Nodup)
    (k : String) (v : α) : (k, v) ∈ d ↔ getVal? d k = some v := by
  induction d with
  | nil => simp [getVal?]
  | cons p d ih =>
    rw [List.map_cons, List.nodup_cons] at hnd
    by_cases h : p.1 == k
    · have h' : p.1 = k := by simpa using h
      simp only [getVal?, List.find?_cons, h, List.mem_cons]
      constructor
      · rintro (rfl | hm)
        · simp
        · exfalso
          apply hnd.1
          rw [h']
          exact List.mem_map.2 ⟨(k, v), hm, rfl⟩
      · intro hv
        left
        have : p.2 = v := by simpa using hv
        cases p
        simp_all
    · have h' : p.1 ≠ k := by simpa using h
      simp only [getVal?, List.find?_cons, h, List.mem_cons]
      rw [← getVal? ]
      rw [ih hnd.2]
      constructor
      · rintro (hp | hm)
        · exact absurd (congrArg Prod.fst hp).symm h'
        · exact hm
      · intro hv; right; exact hv

/-- The stats entry that the aggregation produces for skill-set `k`. -/
def statsOf (r : List (String × List (String × GradeRecord))) (k : String) :
    SkillSetStats :=
  (recsFor k (flatR r)).foldl updStats initStats

theorem getVal?_aggregate (r : List (String × List (String × GradeRecord)))
    (k : String) :
    getVal? (aggregate r) k =
      if (flatR r).any (fun e => e.1 == k) then some (statsOf r k) else none := by
  rw [aggregate_eq_foldl_flat, getVal?_foldl_stepDict]
  simp [getVal?, statsOf]

theorem aggregate_keys_nodup (r : List (String × List (String × GradeRecord))) :
    ((aggregate r).map Prod.fst).Nodup := by
  rw [aggregate_eq_foldl_flat]
  exact keys_foldl_stepDict_nodup _ [] (by simp)

/-- Membership in the aggregated stats dict, characterized record-wise. -/
theorem mem_aggregate_iff (r : List (String × List (String × GradeRecord)))
    (k : String) (s : SkillSetStats) :
    (k, s) ∈ aggregate r ↔
      ((flatR r).any (fun e => e.1 == k) = true ∧ s = statsOf r k) := by
  rw [mem_iff_getVal? _ (aggregate_keys_nodup r), getVal?_aggregate]
  by_cases h : (flatR r).any (fun e => e.1 == k) <;> simp [h, eq_comm]

/-- The concrete grade document of the spec's concrete scenario. -/
def docC1 : GradeDocument :=
  { graded_at := none
    grader := none
    results :=
      [("login",
        [("A", ⟨some true, some (Frac.ofNat 8), none, none⟩),
         ("B", ⟨some false, some (Frac.ofNat 2), none, some "timeout"⟩)]),
       ("signup",
        [("A", ⟨some true, some (Frac.ofNat 9), none, none⟩)])] }

/-- The scores that are present among skill-set `k`'s records, in order. -/
def presentScores (r : List (String × List (String × GradeRecord)))
    (k : String) : List Frac :=
  (recsFor k (flatR r)).filterMap (fun d => d.score)

/-- Modelled from the spec: the exact arithmetic mean of a list of scores,
with the defined convention that an empty list has mean 0. -/
def meanSpec (l : List Frac) : Frac :=
  if l.isEmpty then Frac.ofNat 0
  else Frac.div (exactSum l) (Frac.ofNat l.length)

/-- The average the program computes: `sum(scores) / len(scores)` in Python
(binary64) arithmetic, 0 for an empty list. -/
def pyMean (l : List Frac) : Frac :=
  if l.isEmpty then Frac.ofNat 0
  else pyDiv (pySum l) (Frac.ofNat l.length)

/-- Modelled from the spec: `round(passed/total*100)` formatted with zero
decimal places when `total > 0`, else `0`. `passed/total*100` is the Python
expression, computed in binary64 floats, and Python `round` on the resulting
float is half-to-even rounding of that double's exact value (`rndHE`). -/
def specPctStr (p t : Nat) : String :=
  if 0 < t then
    toString (rndHE (pyMul (pyDiv (Frac.ofNat p) (Frac.ofNat t)) (Frac.ofNat 100)))
  else "0"

theorem statsOf_fields (r : List (String × List (String × GradeRecord)))
    (k : String) :
    (statsOf r k).passed =
        (recsFor k (flatR r)).countP (fun d => d.success == some true) ∧
      (statsOf r k).total = (recsFor k (flatR r)).length ∧
      (statsOf r k).scores = presentScores r k ∧
      (statsOf r k).appropriate =
        (recsFor k (flatR r)).countP
          (fun d => pyLower (d.tool_usage.getD "") == "appropriate") ∧
      (statsOf r k).partialCount =
        (recsFor k (flatR r)).countP
          (fun d => pyLower (d.tool_usage.getD "") == "partial") ∧
      (statsOf r k).inappropriate =
        (recsFor k (flatR r)).countP
          (fun d => pyLower (d.tool_usage.getD "") == "inappropriate") := by
  refine ⟨?_, ?_, ?_, ?_, ?_, ?_⟩ <;>
    simp [statsOf, presentScores, foldl_updStats_passed, foldl_updStats_total,
      foldl_updStats_scores, foldl_updStats_appropriate,
      foldl_updStats_partialCount, foldl_updStats_inappropriate, initStats]

/-- C4, part 2 helper: the percentage cell that `summaryRow` renders is the
rounding of the binary64 value of `passed/total*100` (as `"%.0f"` and
Python `round` are the same half-to-even rounding of that double), and the
average cell is the float mean. -/
theorem summaryRow_eq_spec (k : String) (s : SkillSetStats) :
    summaryRow k s =
      "| " ++ k ++ " | " ++ toString s.passed ++ "/" ++ toString s.total ++
        " (" ++ specPctStr s.passed s.total ++ "%) | " ++
        fmt1 (pyMean s.scores) ++ " | " ++ toolStr s ++ " |" := by
  rw [summaryRow, specPctStr, pyMean]
  by_cases ht : 0 < s.total
  · rw [if_pos ht, if_pos ht]
    by_cases hs : s.scores.isEmpty
    · simp only [hs, if_true, fmt0]
    · simp only [hs, if_false, fmt0]
  · rw [if_neg ht, if_neg ht]
    have h0 : fmt0 (Frac.ofNat 0) = "0" := by decide
    rw [h0]

/-- C4: for every grade document and every skill-set aggregated from it,
`passed <= total`, and the percentage rendered in that skill-set's summary
row equals `round(passed/total*100)` formatted with zero decimal places
when `total > 0` — `passed/total*100` being the Python float expression the
program computes, and `round` Python's round, i.e. half-to-even rounding of
that double (the same rounding `"%.0f"` applies) — and is `0%` when
`total == 0`. -/
theorem claim_C4 (r : List (String × List (String × GradeRecord)))
    (k : String) (s : SkillSetStats) (h : (k, s) ∈ aggregate r) :
    s.passed ≤ s.total ∧
    summaryRow k s =
      "| " ++ k ++ " | " ++ toString s.passed ++ "/" ++ toString s.total ++
        " (" ++ specPctStr s.passed s.total ++ "%) | " ++
        fmt1 (pyMean s.scores) ++ " | " ++ toolStr s ++ " |" := by
  constructor
  · rcases (mem_aggregate_iff r k s).1 h with ⟨-, rfl⟩
    rcases statsOf_fields r k with ⟨hp, ht, -⟩
    rw [hp, ht]
    exact List.countP_le_length _
  · exact summaryRow_eq_spec k s

/-- Witness for C4 at the concrete document: skill-set `A` aggregates to
2 passed of 2 total and renders a 100% cell. -/
theorem claim_C4_witness :
    (⟨2, 2, [Frac.ofNat 8, Frac.ofNat 9], 0, 0, 0⟩ : SkillSetStats).passed ≤
        (⟨2, 2, [Frac.ofNat 8, Frac.ofNat 9], 0, 0, 0⟩ : SkillSetStats).total ∧
      summaryRow "A" ⟨2, 2, [Frac.ofNat 8, Frac.ofNat 9], 0, 0, 0⟩ =
        "| " ++ "A" ++ " | " ++ toString 2 ++ "/" ++ toString 2 ++
          " (" ++ specPctStr 2 2 ++ "%) | " ++
          fmt1 (pyMean [Frac.ofNat 8, Frac.ofNat 9]) ++ " | " ++
          toolStr ⟨2, 2, [Frac.ofNat 8, Frac.ofNat 9], 0, 0, 0⟩ ++ " |" :=
  claim_C4 docC1.results "A" ⟨2, 2, [Frac.ofNat 8, Frac.ofNat 9], 0, 0, 0⟩
    (by decide)

/-- A document with one skill-set `A` over twenty scenarios, with integer
scores summing to 3: the exact mean is 3/20 = 0.15, but Python computes the
float `3/20` (slightly below 0.15) and renders `0.1`. -/
def docC5 : GradeDocument :=
  { graded_at := none
    grader := none
    results :=
      (List.range 20).map (fun i =>
        ("s" ++ toString i,
         [("A", ⟨some true, some (Frac.ofNat (if i < 3 then 1 else 0)),
            none, none⟩)])) }

set_option maxRecDepth 100000 in
/-- Counterexample to C5 as stated: for `docC5`, the summary row for `A`
shows average `0.1` (the float mean `3/20` rounds down), while the exact
arithmetic mean 3/20 of the present scores, rounded to one decimal place, is
`0.2`; so the rendered average is not the rounded arithmetic mean. -/
theorem claim_C5_counterexample :
    (statsOf docC5.results "A").scores = presentScores docC5.results "A" ∧
    summaryRow "A" (statsOf docC5.results "A") =
      "| A | 20/20 (100%) | 0.1 | 0✓ 0~ 0✗ |" ∧
    fmt1 (meanSpec (presentScores docC5.results "A")) = "0.2" ∧
    summaryRow "A" (statsOf docC5.results "A") ≠
      "| A | 20/20 (100%) | " ++
        fmt1 (meanSpec (presentScores docC5.results "A")) ++
        " | 0✓ 0~ 0✗ |" := by
  refine ⟨by decide, by decide, by decide, by decide⟩

/-- C5 (amended): the average shown in a skill-set's summary row is computed
over exactly the scores present in its records (absent scores excluded from
both numerator and denominator) but in Python float arithmetic: the row
shows the binary64 mean `sum(scores)/len(scores)` formatted to one decimal
place — which can differ from the exact arithmetic mean rounded to one
decimal (for example an exact mean of 3/20 renders `0.1`, not `0.2`) — and
shows `0.0` when the skill-set has no scored records. -/
theorem claim_C5 (r : List (String × List (String × GradeRecord)))
    (k : String) (s : SkillSetStats) (h : (k, s) ∈ aggregate r) :
    s.scores = presentScores r k ∧
    summaryRow k s =
      "| " ++ k ++ " | " ++ toString s.passed ++ "/" ++ toString s.total ++
        " (" ++ specPctStr s.passed s.total ++ "%) | " ++
        fmt1 (pyMean (presentScores r k)) ++ " | " ++ toolStr s ++ " |" ∧
    fmt1 (pyMean []) = "0.0" := by
  have hsc : s.scores = presentScores r k := by
    rcases (mem_aggregate_iff r k s).1 h with ⟨-, rfl⟩
    exact (statsOf_fields r k).2.2.1
  refine ⟨hsc, ?_, by decide⟩
  rw [summaryRow_eq_spec, hsc]

/-- Witness for C5 (amended) at the concrete document: skill-set `B` has the
single present score 2, so the float mean is exactly 2 and renders 2.0. -/
theorem claim_C5_witness :
    (⟨0, 1, [Frac.ofNat 2], 0, 0, 0⟩ : SkillSetStats).scores =
        presentScores docC1.results "B" ∧
      summaryRow "B" ⟨0, 1, [Frac.ofNat 2], 0, 0, 0⟩ =
        "| " ++ "B" ++ " | " ++ toString 0 ++ "/" ++ toString 1 ++
          " (" ++ specPctStr 0 1 ++ "%) | " ++
          fmt1 (pyMean (presentScores docC1.results "B")) ++ " | " ++
          toolStr ⟨0, 1, [Frac.ofNat 2], 0, 0, 0⟩ ++ " |" ∧
      fmt1 (pyMean []) = "0.0" :=
  claim_C5 docC1.results "B" ⟨0, 1, [Frac.ofNat 2], 0, 0, 0⟩ (by decide)

theorem length_recsFor (k : String) (l : List (String × GradeRecord)) :
    (recsFor k l).length = l.countP (fun e => e.1 == k) := by
  simp [recsFor, ← List.countP_eq_length_filter]

theorem sum_map_eq_countP (l : List β) (f : β → Nat) (q : β → Bool)
    (h : ∀ b ∈ l, f b = if q b then 1 else 0) :
    (l.map f).sum = l.countP q := by
  induction l with
  | nil => simp
  | cons b l ih =>
    rw [List.map_cons, List.sum_cons, List.countP_cons,
      ih (fun x hx => h x (List.mem_cons_of_mem b hx)),
      h b (List.mem_cons_self b l)]
    by_cases hq : q b <;> simp [hq] <;> omega

theorem countP_scenario_of_nodup (k : String)
    (inner : List (String × GradeRecord))
    (hnd : (inner.map Prod.fst).Nodup) :
    inner.countP (fun e => e.1 == k) =
      if inner.any (fun e => e.1 == k) then 1 else 0 := by
  have hcnt : inner.countP (fun e => e.1 == k) = (inner.map Prod.fst).count k := by
    simp [List.count, List.countP_map, Function.comp_def]
  by_cases hany : inner.any (fun e => e.1 == k)
  · rw [if_pos hany, hcnt]
    have hmem : k ∈ inner.map Prod.fst := by
      rcases List.any_eq_true.1 hany with ⟨e, he, hek⟩
      exact List.mem_map.2 ⟨e, he, by simpa using hek⟩
    have h1 : 0 < (inner.map Prod.fst).count k := List.count_pos_iff.2 hmem
    have h2 : (inner.map Prod.fst).count k ≤ 1 :=
      List.nodup_iff_count_le_one.1 hnd k
    omega
  · rw [if_neg hany, hcnt]
    rw [List.count_eq_zero]
    intro hmem
    apply hany
    rcases List.mem_map.1 hmem with ⟨e, he, hek⟩
    exact List.any_eq_true.2 ⟨e, he, by simp [hek]⟩

/-- C7: every record processed by the Aggregator increments `total` exactly
once, and increments `passed` iff the record's `success` field is explicitly
`true`; consequently `total` for a skill-set equals the number of scenarios
in which that skill-set name appears (skill-set names being unique within
each scenario). -/
theorem claim_C7 (r : List (String × List (String × GradeRecord)))
    (hin : ∀ sc ∈ r, (sc.2.map Prod.fst).Nodup)
    (k : String) (s : SkillSetStats) (h : (k, s) ∈ aggregate r) :
    s.total = (recsFor k (flatR r)).length ∧
    s.passed = (recsFor k (flatR r)).countP (fun d => d.success == some true) ∧
    s.total = r.countP (fun sc => sc.2.any (fun e => e.1 == k)) := by
  rcases (mem_aggregate_iff r k s).1 h with ⟨-, rfl⟩
  rcases statsOf_fields r k with ⟨hp, ht, -⟩
  refine ⟨ht, hp, ?_⟩
  rw [ht, length_recsFor]
  have hflat : (flatR r).countP (fun e => e.1 == k) =
      (r.map (fun sc => sc.2.countP (fun e => e.1 == k))).sum := by
    simp [flatR, List.countP_flatten, List.map_map, Function.comp_def]
  rw [hflat]
  exact sum_map_eq_countP r _ _
    (fun sc hsc => countP_scenario_of_nodup k sc.2 (hin sc hsc))

/-- Witness for C7 at the concrete document: skill-set `A` appears in both
scenarios, so its total is 2. -/
theorem claim_C7_witness :
    (⟨2, 2, [Frac.ofNat 8, Frac.ofNat 9], 0, 0, 0⟩ : SkillSetStats).total =
        (recsFor "A" (flatR docC1.results)).length ∧
      (⟨2, 2, [Frac.ofNat 8, Frac.ofNat 9], 0, 0, 0⟩ : SkillSetStats).passed =
        (recsFor "A" (flatR docC1.results)).countP
          (fun d => d.success == some true) ∧
      (⟨2, 2, [Frac.ofNat 8, Frac.ofNat 9], 0, 0, 0⟩ : SkillSetStats).total =
        docC1.results.countP (fun sc => sc.2.any (fun e => e.1 == "A")) :=
  claim_C7 docC1.results (by decide) "A"
    ⟨2, 2, [Frac.ofNat 8, Frac.ofNat 9], 0, 0, 0⟩ (by decide)

theorem countP_three_disjoint_le_length (l : List α) (p q w : α → Bool)
    (hpq : ∀ a, ¬(p a = true ∧ q a = true))
    (hpw : ∀ a, ¬(p a = true ∧ w a = true))
    (hqw : ∀ a, ¬(q a = true ∧ w a = true)) :
    l.countP p + l.countP q + l.countP w ≤ l.length := by
  induction l with
  | nil => simp
  | cons a l ih =>
    rw [List.countP_cons, List.countP_cons, List.countP_cons, List.length_cons]
    have := hpq a
    have := hpw a
    have := hqw a
    by_cases h1 : p a <;> by_cases h2 : q a <;> by_cases h3 : w a <;>
      simp_all <;> omega

/-- C9: the Aggregator lower-cases each record's `tool_usage` label and
increments exactly one of the three tallies iff the lower-cased label is one
of the three canonical values, silently ignoring any other or absent label
(which still counts toward `total`); hence the three tallied counts for a
skill-set sum to at most `total`. -/
theorem claim_C9 (r : List (String × List (String × GradeRecord)))
    (k : String) (s : SkillSetStats) (h : (k, s) ∈ aggregate r) :
    (s.appropriate = (recsFor k (flatR r)).countP
        (fun d => pyLower (d.tool_usage.getD "") == "appropriate") ∧
      s.partialCount = (recsFor k (flatR r)).countP
        (fun d => pyLower (d.tool_usage.getD "") == "partial") ∧
      s.inappropriate = (recsFor k (flatR r)).countP
        (fun d => pyLower (d.tool_usage.getD "") == "inappropriate")) ∧
    s.appropriate + s.partialCount + s.inappropriate ≤ s.total ∧
    (∀ (s' : SkillSetStats) (d : GradeRecord),
      pyLower (d.tool_usage.getD "") ≠ "appropriate" →
      pyLower (d.tool_usage.getD "") ≠ "partial" →
      pyLower (d.tool_usage.getD "") ≠ "inappropriate" →
      (updStats s' d).appropriate = s'.appropriate ∧
        (updStats s' d).partialCount = s'.partialCount ∧
        (updStats s' d).inappropriate = s'.inappropriate ∧
        (updStats s' d).total = s'.total + 1) := by
  rcases (mem_aggregate_iff r k s).1 h with ⟨-, rfl⟩
  rcases statsOf_fields r k with ⟨-, ht, -, ha, hpc, hi⟩
  refine ⟨⟨ha, hpc, hi⟩, ?_, ?_⟩
  · rw [ha, hpc, hi, ht]
    apply countP_three_disjoint_le_length
    · intro a h
      have h1 : pyLower (a.tool_usage.getD "") = "appropriate" := by
        simpa using h.1
      have h2 : pyLower (a.tool_usage.getD "") = "partial" := by simpa using h.2
      rw [h1] at h2
      exact absurd h2 (by decide)
    · intro a h
      have h1 : pyLower (a.tool_usage.getD "") = "appropriate" := by
        simpa using h.1
      have h2 : pyLower (a.tool_usage.getD "") = "inappropriate" := by
        simpa using h.2
      rw [h1] at h2
      exact absurd h2 (by decide)
    · intro a h
      have h1 : pyLower (a.tool_usage.getD "") = "partial" := by simpa using h.1
      have h2 : pyLower (a.tool_usage.getD "") = "inappropriate" := by
        simpa using h.2
      rw [h1] at h2
      exact absurd h2 (by decide)
  · intro s' d h1 h2 h3
    refine ⟨?_, ?_, ?_, ?_⟩ <;> simp [updStats, h1, h2, h3]

/-- Witness for C9 at the concrete document: skill-set `A` has no canonical
tool-usage labels, so all tallies are 0 and their sum is at most the total. -/
theorem claim_C9_witness :
    ((⟨2, 2, [Frac.ofNat 8, Frac.ofNat 9], 0, 0, 0⟩ : SkillSetStats).appropriate =
        (recsFor "A" (flatR docC1.results)).countP
          (fun d => pyLower (d.tool_usage.getD "") == "appropriate") ∧
      (⟨2, 2, [Frac.ofNat 8, Frac.ofNat 9], 0, 0, 0⟩ : SkillSetStats).partialCount =
        (recsFor "A" (flatR docC1.results)).countP
          (fun d => pyLower (d.tool_usage.getD "") == "partial") ∧
      (⟨2, 2, [Frac.ofNat 8, Frac.ofNat 9], 0, 0, 0⟩ : SkillSetStats).inappropriate =
        (recsFor "A" (flatR docC1.results)).countP
          (fun d => pyLower (d.tool_usage.getD "") == "inappropriate")) ∧
    (⟨2, 2, [Frac.ofNat 8, Frac.ofNat 9], 0, 0, 0⟩ : SkillSetStats).appropriate +
        (⟨2, 2, [Frac.ofNat 8, Frac.ofNat 9], 0, 0, 0⟩ : SkillSetStats).partialCount +
        (⟨2, 2, [Frac.ofNat 8, Frac.ofNat 9], 0, 0, 0⟩ : SkillSetStats).inappropriate ≤
      (⟨2, 2, [Frac.ofNat 8, Frac.ofNat 9], 0, 0, 0⟩ : SkillSetStats).total ∧
    (∀ (s' : SkillSetStats) (d : GradeRecord),
      pyLower (d.tool_usage.getD "") ≠ "appropriate" →
      pyLower (d.tool_usage.getD "") ≠ "partial" →
      pyLower (d.tool_usage.getD "") ≠ "inappropriate" →
      (updStats s' d).appropriate = s'.appropriate ∧
        (updStats s' d).partialCount = s'.partialCount ∧
        (updStats s' d).inappropriate = s'.inappropriate ∧
        (updStats s' d).total = s'.total + 1) :=
  claim_C9 docC1.results "A" ⟨2, 2, [Frac.ofNat 8, Frac.ofNat 9], 0, 0, 0⟩
    (by decide)

/-- String `t` occurs as a contiguous substring of `s`. -/
def containsSub (s t : String) : Prop := t.data <:+: s.data

instance (s t : String) : Decidable (containsSub s t) :=
  inferInstanceAs (Decidable (t.data <:+: s.data))

/-- C3: whenever `load_grades` yields `None`, or yields a document with no
or empty `results`, `generate_report` returns exactly the fixed short
fallback document telling the user to run grading first — the same string
in both cases. -/
theorem claim_C3 (run_id : String) (grades : Option GradeDocument)
    (h : grades = none ∨ ∃ g, grades = some g ∧ g.results = []) :
    generate_report run_id grades = noGradesDoc := by
  rcases h with rfl | ⟨g, rfl, hg⟩
  · rfl
  · simp [generate_report, hg]

/-- Witness for C3: both the `None` case and the empty-results case yield
the fallback document. -/
theorem claim_C3_witness :
    generate_report "20240101" none = noGradesDoc ∧
      generate_report "20240101" (some ⟨some "t", some "me", []⟩) = noGradesDoc :=
  ⟨claim_C3 "20240101" none (Or.inl rfl),
   claim_C3 "20240101" (some ⟨some "t", some "me", []⟩)
     (Or.inr ⟨⟨some "t", some "me", []⟩, rfl, rfl⟩)⟩

/-- Counterexample to C2 as stated: for a document with empty `results`, the
rendered output is the fallback document, which contains no `## Summary`
section at all (the code returns early, before any summary table). -/
theorem claim_C2_counterexample :
    aggregate ([] : List (String × List (String × GradeRecord))) = [] ∧
      generate_report "run1" (some ⟨none, none, []⟩) = noGradesDoc ∧
      ¬ containsSub (generate_report "run1" (some ⟨none, none, []⟩)) "## Summary" := by
  refine ⟨rfl, rfl, ?_⟩
  decide

/-- C2 (amended): for a grade document with empty `results`, the aggregation
yields an empty stats mapping, and `generate_report` returns the fixed
no-grades fallback document (no crash) instead of a report with a Summary
section. -/
theorem claim_C2 (g : GradeDocument) (h : g.results = []) (run_id : String) :
    aggregate g.results = [] ∧ generate_report run_id (some g) = noGradesDoc := by
  refine ⟨by rw [h]; rfl, ?_⟩
  simp [generate_report, h]

/-- Witness for C2 (amended) at a concrete empty document. -/
theorem claim_C2_witness :
    aggregate (⟨some "2024", some "me", []⟩ : GradeDocument).results = [] ∧
      generate_report "run1" (some ⟨some "2024", some "me", []⟩) = noGradesDoc :=
  claim_C2 ⟨some "2024", some "me", []⟩ rfl "run1"

/-- C10: a record whose score is the number 0 is treated as having a present
score: its 0 is appended to the skill-set's scores list, and its detail line
renders the score as `(0)` rather than omitting it; in particular, with
empty-string `tool_usage` and `notes` (which suppress their suffixes), the
line still shows `(0)`. -/
theorem claim_C10 (name : String) (st : SkillSetStats) (d : GradeRecord)
    (h : d.score = some (Frac.ofNat 0)) :
    (updStats st d).scores = st.scores ++ [Frac.ofNat 0] ∧
    containsSub (detailLine name d) "(0)" ∧
    (d.tool_usage = some "" → d.notes = some "" →
      detailLine name d =
        "- **" ++ name ++ "**: " ++
          (if d.success = some true then "✓"
           else if d.success = some false then "❌" else "?") ++ " " ++ "(0)") := by
  have hshow : "(" ++ pyShowNum (Frac.ofNat 0) ++ ")" = "(0)" := by decide
  refine ⟨by simp [updStats, h], ?_, ?_⟩
  · have hd : detailLine name d =
        ("- **" ++ name ++ "**: " ++
          (if d.success = some true then "✓"
           else if d.success = some false then "❌" else "?") ++ " ") ++ "(0)" ++
        ((if d.tool_usage.getD "" ≠ "" then " [tools: " ++ d.tool_usage.getD "" ++ "]" else "") ++
         (if d.notes.getD "" ≠ "" then " - " ++ d.notes.getD "" else "")) := by
      simp only [detailLine, h, hshow]
      simp [String.append_assoc]
    rw [containsSub, hd]
    exact ⟨("- **" ++ name ++ "**: " ++
          (if d.success = some true then "✓"
           else if d.success = some false then "❌" else "?") ++ " ").data,
      ((if d.tool_usage.getD "" ≠ "" then " [tools: " ++ d.tool_usage.getD "" ++ "]" else "") ++
         (if d.notes.getD "" ≠ "" then " - " ++ d.notes.getD "" else "")).data,
      by simp [String.data_append]⟩
  · intro h1 h2
    simp only [detailLine, h, h1, h2, hshow, Option.getD_some]
    simp [String.append_assoc]

/-- Witness for C10: a concrete failing record with score 0, empty tool
usage and empty notes renders `(0)` and appends 0 to the scores. -/
theorem claim_C10_witness :
    (updStats initStats ⟨some false, some (Frac.ofNat 0), some "", some ""⟩).scores =
        initStats.scores ++ [Frac.ofNat 0] ∧
      containsSub
        (detailLine "X" ⟨some false, some (Frac.ofNat 0), some "", some ""⟩)
        "(0)" ∧
      ((⟨some false, some (Frac.ofNat 0), some "", some ""⟩ :
          GradeRecord).tool_usage = some "" →
        (⟨some false, some (Frac.ofNat 0), some "", some ""⟩ :
          GradeRecord).notes = some "" →
        detailLine "X" ⟨some false, some (Frac.ofNat 0), some "", some ""⟩ =
          "- **" ++ "X" ++ "**: " ++
            (if (⟨some false, some (Frac.ofNat 0), some "", some ""⟩ :
                  GradeRecord).success = some true then "✓"
             else if (⟨some false, some (Frac.ofNat 0), some "", some ""⟩ :
                  GradeRecord).success = some false then "❌" else "?") ++ " " ++ "(0)") :=
  claim_C10 "X" initStats ⟨some false, some (Frac.ofNat 0), some "", some ""⟩ rfl

set_option maxRecDepth 40000 in
/-- C1: for the spec's concrete input document, the rendered report is
exactly the expected text: summary row `A` shows `2/2 (100%)` with average
`8.5`, row `B` shows `0/1 (0%)` with average `2.0`, the `signup` detail for
`A` shows glyph `✓` and `(9)`, and the `login` detail for `B` shows glyph
`❌`, `(2)` and note suffix ` - timeout`. -/
theorem claim_C1 :
    generate_report "run1" (some docC1) =
      "# Eval Report: run1\n\nGraded: Not yet\nGrader: unknown\n\n## Summary\n\n| Skill Set | Passed | Avg Score | Tool Usage |\n|-----------|--------|-----------|------------|\n| A | 2/2 (100%) | 8.5 | 0✓ 0~ 0✗ |\n| B | 0/1 (0%) | 2.0 | 0✓ 0~ 0✗ |\n\n## By Scenario\n\n### login\n\n- **A**: ✓ (8)\n- **B**: ❌ (2) - timeout\n\n### signup\n\n- **A**: ✓ (9)\n" ∧
    summaryRow "A" (statsOf docC1.results "A") =
      "| A | 2/2 (100%) | 8.5 | 0✓ 0~ 0✗ |" ∧
    summaryRow "B" (statsOf docC1.results "B") =
      "| B | 0/1 (0%) | 2.0 | 0✓ 0~ 0✗ |" ∧
    renderScenario ("signup", [("A", ⟨some true, some (Frac.ofNat 9), none, none⟩)]) =
      ["### signup", "", "- **A**: ✓ (9)", ""] ∧
    detailLine "B" ⟨some false, some (Frac.ofNat 2), none, some "timeout"⟩ =
      "- **B**: ❌ (2) - timeout" := by
  refine ⟨?_, ?_, ?_, ?_, ?_⟩ <;> decide

/-- Modelled from the spec: one By Scenario detail line, decomposed by the
spec's clauses — skill-set name; tri-state status glyph; score in
parentheses exactly when present; `[tools: <label>]` suffix exactly when
`tool_usage` is a non-empty string (raw value); ` - <notes>` suffix exactly
when `notes` is a non-empty string. -/
def specDetailLine (name : String) (d : GradeRecord) : String :=
  "- **" ++ name ++ "**: " ++
    (match d.success with
      | some true => "✓"
      | some false => "❌"
      | none => "?") ++ " " ++
    (match d.score with
      | some q => "(" ++ pyShowNum q ++ ")"
      | none => "") ++
    (match d.tool_usage with
      | some t => if t = "" then "" else " [tools: " ++ t ++ "]"
      | none => "") ++
    (match d.notes with
      | some n => if n = "" then "" else " - " ++ n
      | none => "")

/-- C8: every By Scenario detail line shows the skill-set name; glyph `✓`
iff `success` is `true`, `❌` iff `false`, `?` iff absent; the score in
parentheses exactly when present (nothing when absent); a `[tools: <label>]`
suffix exactly when `tool_usage` is a non-empty string, with the raw
un-lower-cased value; and a ` - <notes>` suffix exactly when `notes` is a
non-empty string. -/
theorem claim_C8 (name : String) (d : GradeRecord) :
    detailLine name d = specDetailLine name d := by
  rcases d with ⟨su, sc, tu, no⟩
  have hicon :
      (if (⟨su, sc, tu, no⟩ : GradeRecord).success = some true then "✓"
        else if (⟨su, sc, tu, no⟩ : GradeRecord).success = some false then "❌"
        else "?") =
      (match su with
        | some true => "✓"
        | some false => "❌"
        | none => "?") := by
    rcases su with _ | b
    · rfl
    · cases b <;> rfl
  have htool :
      (if (tu.getD "") ≠ "" then " [tools: " ++ tu.getD "" ++ "]" else "") =
      (match tu with
        | some t => if t = "" then "" else " [tools: " ++ t ++ "]"
        | none => "") := by
    rcases tu with _ | t
    · rfl
    · by_cases h : t = "" <;> simp [h]
  have hnotes :
      (if (no.getD "") ≠ "" then " - " ++ no.getD "" else "") =
      (match no with
        | some n => if n = "" then "" else " - " ++ n
        | none => "") := by
    rcases no with _ | n
    · rfl
    · by_cases h : n = "" <;> simp [h]
  simp only [detailLine, specDetailLine]
  rw [hicon, htool, hnotes]
  rcases tu with _ | t <;> rcases no with _ | n <;> rfl

/-- Two results mappings hold the same scenario → skill-set → record
associations, merely in permuted iteration order: the scenarios are permuted
and, scenario by scenario, the skill-set records within are permuted. -/
def ResultsEquiv (r₁ r₂ : List (String × List (String × GradeRecord))) : Prop :=
  ∃ r', r₁.Perm r' ∧
    List.Forall₂ (fun a b => a.1 = b.1 ∧ a.2.Perm b.2) r' r₂

/-- A three-scenario document whose single skill-set `A` has the float
scores 0.1, 0.2 and 0.15, in that scenario order. -/
def docC6a : GradeDocument :=
  { graded_at := none
    grader := none
    results :=
      [("s1", [("A", ⟨some true, some ⟨1, 10⟩, none, none⟩)]),
       ("s2", [("A", ⟨some true, some ⟨2, 10⟩, none, none⟩)]),
       ("s3", [("A", ⟨some true, some ⟨3, 20⟩, none, none⟩)])] }

/-- The same document as `docC6a` with the scenarios reordered: identical
associations, different iteration order. -/
def docC6b : GradeDocument :=
  { graded_at := none
    grader := none
    results :=
      [("s3", [("A", ⟨some true, some ⟨3, 20⟩, none, none⟩)]),
       ("s1", [("A", ⟨some true, some ⟨1, 10⟩, none, none⟩)]),
       ("s2", [("A", ⟨some true, some ⟨2, 10⟩, none, none⟩)])] }

set_option maxRecDepth 100000 in
/-- C6 fails on the code: `docC6a` and `docC6b` hold the same
scenario-to-skill-set-to-record associations (scenarios permuted, names
unique at both levels), yet `generate_report` renders different bytes. The
aggregation loop walks `results.items()` in insertion order, so the scores
list for `A` is [0.1, 0.2, 0.15] versus [0.15, 0.1, 0.2], and Python float
summation is order-dependent: the first sums to 0.45000000000000007 and the
average renders `0.2`, the second sums to 0.45 and renders `0.1`. The spec
demands byte-identical output under such reordering, so the claim states the
intended behavior and the code falls short of it. -/
theorem claim_C6 :
    ResultsEquiv docC6a.results docC6b.results ∧
    (docC6a.results.map Prod.fst).Nodup ∧
    (∀ sc ∈ docC6a.results, (sc.2.map Prod.fst).Nodup) ∧
    generate_report "run1" (some docC6a) ≠ generate_report "run1" (some docC6b) := by
  refine ⟨⟨docC6b.results, by decide, ?_⟩, by decide, by decide, by decide⟩
  exact List.Forall₂.cons ⟨rfl, by decide⟩
    (List.Forall₂.cons ⟨rfl, by decide⟩
      (List.Forall₂.cons ⟨rfl, by decide⟩ List.Forall₂.nil))

end SkillEval
